import Mathlib

/-!
Verification of the NAT-PMP packet codec (`automap/src/protocols/pmp/pmp_packet.rs`)
against its design specification.

Bytes are modelled as `Nat` values; buffers as `List Nat`. The Rust `u8`/`u16`/`u32`
machine types are modelled as `Nat` with explicit `% 256` / bounds hypotheses where the
source performs casts or relies on the machine width. In-place buffer mutation is
modelled by returning the updated list alongside the result. The `unimplemented!()`
macro (a process abort) is modelled by an outer `Option` layer: `none` means the code
panics instead of returning.

The files `protocols/utils.rs` and `protocols/pmp/get_packet.rs` are not part of the
sources provided; definitions taken from them are modelled from the specification and
carry a doc comment saying so.
-/

namespace Pmp

/-- Modelled from the spec: `Direction` lives in the missing `protocols/utils.rs`.
A two-valued tag; on the wire it is bit 7 of the second header byte. -/
inductive Direction where
  | request
  | response
deriving DecidableEq, Repr

/-- Modelled from the spec: `Direction::from(b)` is `Response` iff `b & 0x80 != 0`
(missing `protocols/utils.rs`). -/
def Direction.from (b : Nat) : Direction :=
  if b &&& 0x80 = 0 then .request else .response

/-- Modelled from the spec: `Direction::code()` gives the wire bit, `Request = 0x00`,
`Response = 0x80` (missing `protocols/utils.rs`, used at step 4 of the marshal
contract). -/
def Direction.code : Direction → Nat
  | .request => 0x00
  | .response => 0x80

/-- `Opcode` from `pmp_packet.rs`: known variants plus a 7-bit fallthrough. -/
inductive Opcode where
  | get
  | mapUdp
  | mapTcp
  | other (n : Nat)
deriving DecidableEq, Repr

/-- `impl From<u8> for Opcode` from `pmp_packet.rs`: match on `input & 0x7F`. -/
def Opcode.from (input : Nat) : Opcode :=
  match input &&& 0x7F with
  | 0 => .get
  | 1 => .mapUdp
  | 2 => .mapTcp
  | x => .other x

/-- `Opcode::code` from `pmp_packet.rs`: the 7-bit wire code, clamping `Other`. -/
def Opcode.code : Opcode → Nat
  | .get => 0
  | .mapUdp => 1
  | .mapTcp => 2
  | .other code => code &&& 0x7F

/-- Modelled from the spec: `ParseError` lives in the missing `protocols/utils.rs`;
variants per spec section 7. -/
inductive ParseError where
  | shortBuffer
  | wrongVersion
  | unexpectedOpcodeData
deriving DecidableEq, Repr

/-- Modelled from the spec: `MarshalError` lives in the missing `protocols/utils.rs`.
Section 7 lists `ShortBuffer`; section 4.3 additionally demands that a `Get` response
marshal with a missing field be treated as `UnexpectedOpcodeData`, so the model gives
the marshal taxonomy that variant as well. -/
inductive MarshalError where
  | shortBuffer
  | unexpectedOpcodeData
deriving DecidableEq, Repr

/-- Modelled from the spec: `u16_at(buf, off)` reads a big-endian 16-bit integer
(missing `protocols/utils.rs`). Out-of-range reads are modelled as 0 here; the
bounds-instrumented parser below accounts for actual read safety. -/
def u16_at (buf : List Nat) (off : Nat) : Nat :=
  buf.getD off 0 * 256 + buf.getD (off + 1) 0

/-- Modelled from the spec: `u16_into(buf, off, v)` writes a big-endian 16-bit integer
(missing `protocols/utils.rs`). -/
def u16_into (buf : List Nat) (off v : Nat) : List Nat :=
  (buf.set off (v / 256 % 256)).set (off + 1) (v % 256)

/-- Modelled from the spec: the 32-bit big-endian read helper of the missing
`protocols/utils.rs`. -/
def u32_at (buf : List Nat) (off : Nat) : Nat :=
  buf.getD off 0 * 2 ^ 24 + buf.getD (off + 1) 0 * 2 ^ 16 +
    buf.getD (off + 2) 0 * 256 + buf.getD (off + 3) 0

/-- Modelled from the spec: the 32-bit big-endian write helper of the missing
`protocols/utils.rs`. -/
def u32_into (buf : List Nat) (off v : Nat) : List Nat :=
  ((((buf.set off (v / 2 ^ 24 % 256)).set (off + 1) (v / 2 ^ 16 % 256)).set
    (off + 2) (v / 256 % 256)).set (off + 3) (v % 256))

/-- Modelled from the spec: an IPv4 address as its four octets
(`std::net::Ipv4Addr` in the source). -/
structure Ipv4Addr where
  o0 : Nat
  o1 : Nat
  o2 : Nat
  o3 : Nat
deriving DecidableEq, Repr

/-- Modelled from the spec: `GetOpcodeData` of the missing
`protocols/pmp/get_packet.rs`, section 4.3. -/
structure GetOpcodeData where
  epoch_opt : Option Nat
  external_ip_address_opt : Option Ipv4Addr
deriving DecidableEq, Repr

/-- Modelled from the spec: `GetOpcodeData::new(direction, buf)`, section 4.3.
A request body is empty (any slice accepted, both fields `None`); a response body
needs 8 bytes: big-endian epoch then four IPv4 octets. -/
def GetOpcodeData.new (direction : Direction) (buf : List Nat) :
    Except ParseError GetOpcodeData :=
  match direction with
  | .request => .ok ⟨none, none⟩
  | .response =>
    if buf.length < 8 then .error .shortBuffer
    else .ok ⟨some (u32_at buf 0),
      some ⟨buf.getD 4 0, buf.getD 5 0, buf.getD 6 0, buf.getD 7 0⟩⟩

/-- The concrete payload types implementing the `PmpOpcodeData` capability:
`UnrecognizedData` (from the missing `protocols/utils.rs`) and `GetOpcodeData`.
The source erases them behind `Box<dyn PmpOpcodeData>`; the model uses a sum. -/
inductive PmpOpcodeData where
  | unrecognized
  | get (d : GetOpcodeData)
deriving DecidableEq, Repr

/-- Modelled from the spec: the `OpcodeData::len(direction)` capability.
`UnrecognizedData` is a zero-byte payload; `Get` is 0 bytes as a request and
8 bytes as a response (sections 4.3 and 4.4). -/
def PmpOpcodeData.len (d : PmpOpcodeData) (direction : Direction) : Nat :=
  match d, direction with
  | .unrecognized, _ => 0
  | .get _, .request => 0
  | .get _, .response => 8

/-- Modelled from the spec: `GetOpcodeData`'s `OpcodeData::marshal`, section 4.3.
Returns the updated buffer and the result. A request writes nothing; a response
needs 8 bytes and both fields present, else `UnexpectedOpcodeData`. -/
def GetOpcodeData.marshal (g : GetOpcodeData) (direction : Direction)
    (buf : List Nat) : List Nat × Except MarshalError Unit :=
  match direction with
  | .request => (buf, .ok ())
  | .response =>
    if buf.length < 8 then (buf, .error .shortBuffer)
    else
      match g.epoch_opt, g.external_ip_address_opt with
      | some epoch, some ip =>
        ((((u32_into buf 0 epoch).set 4 ip.o0).set 5 ip.o1).set 6 ip.o2 |>.set 7 ip.o3,
          .ok ())
      | _, _ => (buf, .error .unexpectedOpcodeData)

/-- Modelled from the spec: the `OpcodeData::marshal` capability dispatched over the
concrete payloads. `UnrecognizedData` writes nothing and always succeeds
(section 4.4). -/
def PmpOpcodeData.marshal (d : PmpOpcodeData) (direction : Direction)
    (buf : List Nat) : List Nat × Except MarshalError Unit :=
  match d with
  | .unrecognized => (buf, .ok ())
  | .get g => g.marshal direction buf

/-- `Opcode::parse_data` from `pmp_packet.rs`. `MapUdp` and `MapTcp` call
`unimplemented!()`, which aborts the process; the abort is modelled as `none`. -/
def Opcode.parse_data (op : Opcode) (direction : Direction) (buf : List Nat) :
    Option (Except ParseError PmpOpcodeData) :=
  match op with
  | .get =>
    match GetOpcodeData.new direction buf with
    | .ok d => some (.ok (.get d))
    | .error e => some (.error e)
  | .mapUdp => none
  | .mapTcp => none
  | .other _ => some (.ok .unrecognized)

/-- `PmpPacket` from `pmp_packet.rs`. -/
structure PmpPacket where
  version : Nat
  direction : Direction
  opcode : Opcode
  result_code_opt : Option Nat
  opcode_data : PmpOpcodeData
deriving DecidableEq, Repr

/-- `impl TryFrom<&[u8]> for PmpPacket` from `pmp_packet.rs` lines 70-103.
`none` means the code panics (an `unimplemented!()` payload parser was reached). -/
def PmpPacket.try_from (buffer : List Nat) :
    Option (Except ParseError PmpPacket) :=
  if buffer.length < 2 then some (.error .shortBuffer)
  else
    let version := buffer.getD 0 0
    let direction := Direction.from (buffer.getD 1 0)
    let opcode := Opcode.from (buffer.getD 1 0)
    match direction with
    | .request =>
      match opcode.parse_data .request (buffer.drop 2) with
      | none => none
      | some (.error e) => some (.error e)
      | some (.ok d) => some (.ok ⟨version, .request, opcode, none, d⟩)
    | .response =>
      if buffer.length < 4 then some (.error .shortBuffer)
      else
        let result_code := u16_at buffer 2
        match opcode.parse_data .response (buffer.drop 4) with
        | none => none
        | some (.error e) => some (.error e)
        | some (.ok d) =>
          some (.ok ⟨version, .response, opcode, some result_code, d⟩)

/-- The header length used by `PmpPacket::marshal`: 2 for requests, 4 for
responses. -/
def headerLen : Direction → Nat
  | .request => 2
  | .response => 4

/-- The number of bytes `PmpPacket::marshal` requires and reports:
`header_len + opcode_data.len(direction)`. -/
def PmpPacket.requiredLen (p : PmpPacket) : Nat :=
  headerLen p.direction + p.opcode_data.len p.direction

/-- `impl Packet for PmpPacket::marshal` from `pmp_packet.rs` lines 105-125.
Returns the (possibly partially) written buffer together with the Rust return
value. -/
def PmpPacket.marshal (p : PmpPacket) (buffer : List Nat) :
    List Nat × Except MarshalError Nat :=
  let required_len := headerLen p.direction + p.opcode_data.len p.direction
  if buffer.length < required_len then (buffer, .error .shortBuffer)
  else
    let b1 := buffer.set 0 p.version
    let b2 := b1.set 1 (p.direction.code ||| p.opcode.code)
    let step : List Nat × Nat :=
      match p.direction with
      | .request => (b2, 2)
      | .response => (u16_into b2 2 (p.result_code_opt.getD 0), 4)
    match p.opcode_data.marshal p.direction (step.1.drop step.2) with
    | (tail, .error e) => (step.1.take step.2 ++ tail, .error e)
    | (tail, .ok _) => (step.1.take step.2 ++ tail, .ok required_len)

/-- Equality of `Except` results is decidable; needed to evaluate parse results. -/
instance {e a : Type} [DecidableEq e] [DecidableEq a] : DecidableEq (Except e a) :=
  fun x y =>
  match x, y with
  | .error u, .error v => decidable_of_iff (u = v) (by simp)
  | .error _, .ok _ => isFalse (by simp)
  | .ok _, .error _ => isFalse (by simp)
  | .ok u, .ok v => decidable_of_iff (u = v) (by simp)

/-! ## Bounds-instrumented parser

The same parse algorithm with every byte access instrumented: an access at or past
the buffer's length yields `none` (outer layer). Agreement with the plain parser
states that no out-of-bounds read ever occurs. -/

/-- Instrumented `u16_at`: fails instead of reading out of range. -/
def u16_at_checked (buf : List Nat) (off : Nat) : Option Nat :=
  match buf[off]?, buf[off + 1]? with
  | some hi, some lo => some (hi * 256 + lo)
  | _, _ => none

/-- Instrumented `u32_at`: fails instead of reading out of range. -/
def u32_at_checked (buf : List Nat) (off : Nat) : Option Nat :=
  match buf[off]?, buf[off + 1]?, buf[off + 2]?, buf[off + 3]? with
  | some a, some b, some c, some d => some (a * 2 ^ 24 + b * 2 ^ 16 + c * 256 + d)
  | _, _, _, _ => none

/-- Instrumented `GetOpcodeData::new`: every read checked. -/
def GetOpcodeData.new_checked (direction : Direction) (buf : List Nat) :
    Option (Except ParseError GetOpcodeData) :=
  match direction with
  | .request => some (.ok ⟨none, none⟩)
  | .response =>
    if buf.length < 8 then some (.error .shortBuffer)
    else
      match u32_at_checked buf 0, buf[4]?, buf[5]?, buf[6]?, buf[7]? with
      | some e, some a, some b, some c, some d => some (.ok ⟨some e, some ⟨a, b, c, d⟩⟩)
      | _, _, _, _, _ => none

/-- Instrumented `Opcode::parse_data`: outer layer is read safety, inner layer the
panic marker of the plain function. -/
def Opcode.parse_data_checked (op : Opcode) (direction : Direction) (buf : List Nat) :
    Option (Option (Except ParseError PmpOpcodeData)) :=
  match op with
  | .get =>
    match GetOpcodeData.new_checked direction buf with
    | none => none
    | some (.ok d) => some (some (.ok (.get d)))
    | some (.error e) => some (some (.error e))
  | .mapUdp => some none
  | .mapTcp => some none
  | .other _ => some (some (.ok .unrecognized))

/-- Instrumented `TryFrom<&[u8]> for PmpPacket`: every byte read and every subslice
bound checked. -/
def PmpPacket.try_from_checked (buffer : List Nat) :
    Option (Option (Except ParseError PmpPacket)) :=
  if buffer.length < 2 then some (some (.error .shortBuffer))
  else
    match buffer[0]?, buffer[1]? with
    | some version, some b1 =>
      match Direction.from b1 with
      | .request =>
        if 2 ≤ buffer.length then
          match (Opcode.from b1).parse_data_checked .request (buffer.drop 2) with
          | none => none
          | some none => some none
          | some (some (.error e)) => some (some (.error e))
          | some (some (.ok d)) =>
            some (some (.ok ⟨version, .request, Opcode.from b1, none, d⟩))
        else none
      | .response =>
        if buffer.length < 4 then some (some (.error .shortBuffer))
        else
          match u16_at_checked buffer 2 with
          | none => none
          | some rc =>
            if 4 ≤ buffer.length then
              match (Opcode.from b1).parse_data_checked .response (buffer.drop 4) with
              | none => none
              | some none => some none
              | some (some (.error e)) => some (some (.error e))
              | some (some (.ok d)) =>
                some (some (.ok ⟨version, .response, Opcode.from b1, some rc, d⟩))
            else none
    | _, _ => none

/-! ## Validity predicates -/

/-- The Rust machine-width bounds of `Ipv4Addr`: each octet is a `u8`. -/
def Ipv4Addr.widths (ip : Ipv4Addr) : Prop :=
  ip.o0 < 256 ∧ ip.o1 < 256 ∧ ip.o2 < 256 ∧ ip.o3 < 256

/-- The Rust machine-width bounds of a payload: the `Get` epoch is a `u32` and the
address octets are `u8`. -/
def PmpOpcodeData.widths : PmpOpcodeData → Prop
  | .unrecognized => True
  | .get g => g.epoch_opt.getD 0 < 2 ^ 32 ∧ (g.external_ip_address_opt.getD ⟨0, 0, 0, 0⟩).widths

/-- The Rust machine-width bounds of a packet: `version` is a `u8`, the result code a
`u16`, and the payload fields within their widths. These hold of every value the Rust
type system can build. -/
def PmpPacket.machineWidths (p : PmpPacket) : Prop :=
  p.version < 256 ∧ p.result_code_opt.getD 0 < 2 ^ 16 ∧ p.opcode_data.widths

/-- A payload the registry (`Opcode::parse_data`) can reproduce for the given opcode
and direction: `Other(_)` always parses to `UnrecognizedData`; `Get` parses to a
`GetOpcodeData` whose fields are both absent for a request and both present for a
response; `MapUdp`/`MapTcp` never return a payload (they panic). -/
def reproducible (direction : Direction) (op : Opcode) : PmpOpcodeData → Prop
  | .unrecognized => match op with
    | .other _ => True
    | _ => False
  | .get g => match op with
    | .get => match direction with
      | .request => g = ⟨none, none⟩
      | .response => g.epoch_opt.isSome ∧ g.external_ip_address_opt.isSome
    | _ => False

/-- The valid-packet condition of the round-trip claim: the result code is present
exactly for responses, and the payload is one the registry can reproduce. -/
def PmpPacket.validShell (p : PmpPacket) : Prop :=
  (p.result_code_opt.isSome ↔ p.direction = .response) ∧
    reproducible p.direction p.opcode p.opcode_data

/-- The payload can marshal under the packet's direction: a `Get` response payload
must carry both fields (spec section 4.3); everything else always marshals. -/
def PmpPacket.payloadMarshalOk (p : PmpPacket) : Prop :=
  match p.direction, p.opcode_data with
  | .response, .get g => g.epoch_opt.isSome ∧ g.external_ip_address_opt.isSome
  | _, _ => True

instance (ip : Ipv4Addr) : Decidable ip.widths := by
  unfold Ipv4Addr.widths; infer_instance

instance (d : PmpOpcodeData) : Decidable d.widths := by
  cases d <;> (unfold PmpOpcodeData.widths; infer_instance)

instance (p : PmpPacket) : Decidable p.machineWidths := by
  unfold PmpPacket.machineWidths; infer_instance

instance : (direction : Direction) → (op : Opcode) → (d : PmpOpcodeData) →
    Decidable (reproducible direction op d)
  | _, .get, .unrecognized => .isFalse id
  | _, .mapUdp, .unrecognized => .isFalse id
  | _, .mapTcp, .unrecognized => .isFalse id
  | _, .other _, .unrecognized => .isTrue trivial
  | .request, .get, .get g => inferInstanceAs (Decidable (g = ⟨none, none⟩))
  | .response, .get, .get g =>
    inferInstanceAs (Decidable (g.epoch_opt.isSome ∧ g.external_ip_address_opt.isSome))
  | _, .mapUdp, .get _ => .isFalse id
  | _, .mapTcp, .get _ => .isFalse id
  | _, .other _, .get _ => .isFalse id

instance (p : PmpPacket) : Decidable p.validShell := by
  unfold PmpPacket.validShell; infer_instance

/-- Decidability of `payloadMarshalOk`, split on the direction/payload pair. -/
def decPayloadMarshalOk : (direction : Direction) → (d : PmpOpcodeData) →
    Decidable (match direction, d with
      | .response, .get g => g.epoch_opt.isSome ∧ g.external_ip_address_opt.isSome
      | _, _ => True)
  | .request, .unrecognized => .isTrue trivial
  | .request, .get _ => .isTrue trivial
  | .response, .unrecognized => .isTrue trivial
  | .response, .get g =>
    inferInstanceAs (Decidable (g.epoch_opt.isSome ∧ g.external_ip_address_opt.isSome))

instance (p : PmpPacket) : Decidable p.payloadMarshalOk :=
  decPayloadMarshalOk p.direction p.opcode_data

/-! ## Bit-level helper lemmas -/

theorem opcode_code_lt (op : Opcode) : op.code < 128 := by
  cases op with
  | other n => exact Nat.lt_succ_of_le (Nat.and_le_right)
  | _ => decide

theorem direction_from_lo : ∀ c, c < 128 → Direction.from c = .request := by decide

theorem direction_from_hi : ∀ c, c < 128 → Direction.from (128 ||| c) = .response := by
  decide

theorem opcode_from_or128 : ∀ c, c < 128 → Opcode.from (128 ||| c) = Opcode.from c := by
  decide

theorem direction_from_code_or (dir : Direction) (op : Opcode) :
    Direction.from (dir.code ||| op.code) = dir := by
  cases dir with
  | request =>
    have h : Direction.code .request ||| op.code = op.code := Nat.zero_or _
    rw [h]
    exact direction_from_lo _ (opcode_code_lt op)
  | response => exact direction_from_hi _ (opcode_code_lt op)

theorem opcode_from_code_or (dir : Direction) (op : Opcode)
    (hcanon : Opcode.from op.code = op) :
    Opcode.from (dir.code ||| op.code) = op := by
  cases dir with
  | request =>
    have h : Direction.code .request ||| op.code = op.code := Nat.zero_or _
    rw [h, hcanon]
  | response => rw [Direction.code, opcode_from_or128 _ (opcode_code_lt op), hcanon]

/-! ## Characterizations of parse and marshal on destructured buffers -/

theorem exists_cons_of_le_length {l : List Nat} (n : Nat) (h : n + 1 ≤ l.length) :
    ∃ a t, l = a :: t ∧ n ≤ t.length := by
  cases l with
  | nil => simp at h
  | cons a t => exact ⟨a, t, rfl, by simpa using h⟩

theorem try_from_request_cons (v c : Nat) (t : List Nat)
    (hdir : Direction.from c = .request) :
    PmpPacket.try_from (v :: c :: t) =
      match (Opcode.from c).parse_data .request t with
      | none => none
      | some (.error e) => some (.error e)
      | some (.ok d) => some (.ok ⟨v, .request, Opcode.from c, none, d⟩) := by
  unfold PmpPacket.try_from
  rw [if_neg (by simp)]
  simp only [List.getD_cons_zero, List.getD_cons_succ, hdir, List.drop_succ_cons,
    List.drop_zero]

theorem try_from_response_cons (v c b2 b3 : Nat) (t : List Nat)
    (hdir : Direction.from c = .response) :
    PmpPacket.try_from (v :: c :: b2 :: b3 :: t) =
      match (Opcode.from c).parse_data .response t with
      | none => none
      | some (.error e) => some (.error e)
      | some (.ok d) =>
        some (.ok ⟨v, .response, Opcode.from c, some (b2 * 256 + b3), d⟩) := by
  unfold PmpPacket.try_from
  rw [if_neg (by simp)]
  simp only [List.getD_cons_zero, List.getD_cons_succ, hdir, List.drop_succ_cons,
    List.drop_zero]
  rw [if_neg (by simp)]
  simp only [u16_at, List.getD_cons_zero, List.getD_cons_succ]

theorem marshal_request_cons (p : PmpPacket) (hd : p.direction = .request)
    (b0 b1 : Nat) (t : List Nat) :
    p.marshal (b0 :: b1 :: t) =
      (p.version :: (Direction.code .request ||| p.opcode.code) :: t, .ok 2) := by
  unfold PmpPacket.marshal
  rw [hd]
  cases hdata : p.opcode_data with
  | unrecognized =>
    simp [PmpOpcodeData.len, PmpOpcodeData.marshal, headerLen, List.set]
  | get g =>
    simp [PmpOpcodeData.len, PmpOpcodeData.marshal, GetOpcodeData.marshal, headerLen,
      List.set]

theorem marshal_response_unrec_cons (p : PmpPacket) (hd : p.direction = .response)
    (hdata : p.opcode_data = .unrecognized) (b0 b1 b2 b3 : Nat) (t : List Nat) :
    p.marshal (b0 :: b1 :: b2 :: b3 :: t) =
      (p.version :: (Direction.code .response ||| p.opcode.code) ::
        (p.result_code_opt.getD 0 / 256 % 256) :: (p.result_code_opt.getD 0 % 256) :: t,
        .ok 4) := by
  unfold PmpPacket.marshal
  rw [hd, hdata]
  simp [PmpOpcodeData.len, PmpOpcodeData.marshal, headerLen, u16_into, List.set]

theorem marshal_response_get_cons (p : PmpPacket) (hd : p.direction = .response)
    (e : Nat) (ip : Ipv4Addr) (hdata : p.opcode_data = .get ⟨some e, some ip⟩)
    (b0 b1 b2 b3 b4 b5 b6 b7 b8 b9 b10 b11 : Nat) (t : List Nat) :
    p.marshal
        (b0 :: b1 :: b2 :: b3 :: b4 :: b5 :: b6 :: b7 :: b8 :: b9 :: b10 :: b11 :: t) =
      (p.version :: (Direction.code .response ||| p.opcode.code) ::
        (p.result_code_opt.getD 0 / 256 % 256) :: (p.result_code_opt.getD 0 % 256) ::
        (e / 2 ^ 24 % 256) :: (e / 2 ^ 16 % 256) :: (e / 256 % 256) :: (e % 256) ::
        ip.o0 :: ip.o1 :: ip.o2 :: ip.o3 :: t,
        .ok 12) := by
  unfold PmpPacket.marshal
  rw [hd, hdata]
  simp [PmpOpcodeData.len, PmpOpcodeData.marshal, GetOpcodeData.marshal, headerLen,
    u16_into, u32_into, List.set]
  rw [if_neg (by omega), if_neg (by omega)]

/-! ## Claims -/

/-- C1 (counterexample): the claim quantifies over every packet whose direction and
payload are valid (result code present iff response, payload reproducible by the
registry) and asserts the round-trip restores the packet — but a packet carrying
`Other(255)` satisfies that validity condition, marshals (its code is clamped to 127),
and parses back with opcode `Other(127)`, not `Other(255)`. -/
theorem opcode_clamp_breaks_roundtrip :
    (⟨0, .request, .other 255, none, .unrecognized⟩ : PmpPacket).machineWidths ∧
    (⟨0, .request, .other 255, none, .unrecognized⟩ : PmpPacket).validShell ∧
    (⟨0, .request, .other 255, none, .unrecognized⟩ : PmpPacket).requiredLen ≤
      ([0, 0] : List Nat).length ∧
    PmpPacket.try_from
        ((PmpPacket.marshal ⟨0, .request, .other 255, none, .unrecognized⟩ [0, 0]).1) ≠
      some (.ok ⟨0, .request, .other 255, none, .unrecognized⟩) := by
  decide

/-- C1 (amended): for every packet within the Rust machine widths whose
direction/payload pair is valid (result code present iff the direction is `Response`,
payload reproducible by the registry) and whose opcode is canonical
(`Opcode::from(op.code()) == op`, which excludes `Other(n)` with `n ≥ 128` or
`n ∈ {0,1,2}`), marshalling into any buffer of at least the required length and
parsing the written bytes yields the packet back, all five fields included. -/
theorem marshal_parse_roundtrip (p : PmpPacket) (B : List Nat)
    (hw : p.machineWidths) (hv : p.validShell)
    (hcanon : Opcode.from p.opcode.code = p.opcode)
    (hb : p.requiredLen ≤ B.length) :
    PmpPacket.try_from (p.marshal B).1 = some (.ok p) := by
  rcases p with ⟨ver, dir, op, rco, data⟩
  obtain ⟨hver, hrc, hwdata⟩ := hw
  obtain ⟨hiff, hrep⟩ := hv
  simp only [PmpPacket.requiredLen] at hb
  cases data with
  | unrecognized =>
    obtain ⟨n, rfl⟩ : ∃ n, op = Opcode.other n := by
      cases op with
      | other n => exact ⟨n, rfl⟩
      | get => exact hrep.elim
      | mapUdp => exact hrep.elim
      | mapTcp => exact hrep.elim
    cases dir with
    | request =>
      have hrco : rco = none := by
        cases rco with
        | none => rfl
        | some v => simp at hiff
      subst hrco
      simp only [headerLen, PmpOpcodeData.len] at hb
      obtain ⟨b0, B1, rfl, hB1⟩ := exists_cons_of_le_length (l := B) 1 (by omega)
      obtain ⟨b1, t, rfl, ht⟩ := exists_cons_of_le_length (l := B1) 0 (by omega)
      rw [marshal_request_cons _ rfl]
      dsimp only
      rw [try_from_request_cons _ _ _ (direction_from_code_or .request (.other n))]
      rw [opcode_from_code_or .request (.other n) hcanon]
      rfl
    | response =>
      obtain ⟨v, rfl⟩ : ∃ v, rco = some v := by
        cases rco with
        | none => simp at hiff
        | some v => exact ⟨v, rfl⟩
      simp only [headerLen, PmpOpcodeData.len] at hb
      obtain ⟨b0, B1, rfl, hB1⟩ := exists_cons_of_le_length (l := B) 3 (by omega)
      obtain ⟨b1, B2, rfl, hB2⟩ := exists_cons_of_le_length (l := B1) 2 (by omega)
      obtain ⟨b2, B3, rfl, hB3⟩ := exists_cons_of_le_length (l := B2) 1 (by omega)
      obtain ⟨b3, t, rfl, ht⟩ := exists_cons_of_le_length (l := B3) 0 (by omega)
      rw [marshal_response_unrec_cons _ rfl rfl]
      dsimp only
      rw [try_from_response_cons _ _ _ _ _ (direction_from_code_or .response (.other n))]
      rw [opcode_from_code_or .response (.other n) hcanon]
      simp only [Option.getD_some] at hrc
      have hv16 : v / 256 % 256 * 256 + v % 256 = v := by omega
      simp only [Option.getD_some, Opcode.parse_data, hv16]
  | get g =>
    obtain rfl : op = Opcode.get := by
      cases op with
      | get => rfl
      | other m => exact hrep.elim
      | mapUdp => exact hrep.elim
      | mapTcp => exact hrep.elim
    cases dir with
    | request =>
      obtain rfl : g = ⟨none, none⟩ := hrep
      have hrco : rco = none := by
        cases rco with
        | none => rfl
        | some v => simp at hiff
      subst hrco
      simp only [headerLen, PmpOpcodeData.len] at hb
      obtain ⟨b0, B1, rfl, hB1⟩ := exists_cons_of_le_length (l := B) 1 (by omega)
      obtain ⟨b1, t, rfl, ht⟩ := exists_cons_of_le_length (l := B1) 0 (by omega)
      rw [marshal_request_cons _ rfl]
      dsimp only
      rw [try_from_request_cons _ _ _ (direction_from_code_or .request .get)]
      rw [opcode_from_code_or .request .get hcanon]
      rfl
    | response =>
      obtain ⟨eo, io⟩ := g
      obtain ⟨he, hi⟩ := hrep
      obtain ⟨e, rfl⟩ : ∃ e, eo = some e := by
        cases eo with
        | none => exact absurd he (by simp)
        | some e => exact ⟨e, rfl⟩
      obtain ⟨ip, rfl⟩ : ∃ ip, io = some ip := by
        cases io with
        | none => exact absurd hi (by simp)
        | some ip => exact ⟨ip, rfl⟩
      obtain ⟨v, rfl⟩ : ∃ v, rco = some v := by
        cases rco with
        | none => simp at hiff
        | some v => exact ⟨v, rfl⟩
      simp only [headerLen, PmpOpcodeData.len] at hb
      obtain ⟨b0, B1, rfl, hB1⟩ := exists_cons_of_le_length (l := B) 11 (by omega)
      obtain ⟨b1, B2, rfl, hB2⟩ := exists_cons_of_le_length (l := B1) 10 (by omega)
      obtain ⟨b2, B3, rfl, hB3⟩ := exists_cons_of_le_length (l := B2) 9 (by omega)
      obtain ⟨b3, B4, rfl, hB4⟩ := exists_cons_of_le_length (l := B3) 8 (by omega)
      obtain ⟨b4, B5, rfl, hB5⟩ := exists_cons_of_le_length (l := B4) 7 (by omega)
      obtain ⟨b5, B6, rfl, hB6⟩ := exists_cons_of_le_length (l := B5) 6 (by omega)
      obtain ⟨b6, B7, rfl, hB7⟩ := exists_cons_of_le_length (l := B6) 5 (by omega)
      obtain ⟨b7, B8, rfl, hB8⟩ := exists_cons_of_le_length (l := B7) 4 (by omega)
      obtain ⟨b8, B9, rfl, hB9⟩ := exists_cons_of_le_length (l := B8) 3 (by omega)
      obtain ⟨b9, B10, rfl, hB10⟩ := exists_cons_of_le_length (l := B9) 2 (by omega)
      obtain ⟨b10, B11, rfl, hB11⟩ := exists_cons_of_le_length (l := B10) 1 (by omega)
      obtain ⟨b11, t, rfl, ht⟩ := exists_cons_of_le_length (l := B11) 0 (by omega)
      rw [marshal_response_get_cons _ rfl e ip rfl]
      dsimp only
      rw [try_from_response_cons _ _ _ _ _ (direction_from_code_or .response .get)]
      rw [opcode_from_code_or .response .get hcanon]
      simp only [Option.getD_some] at hrc
      obtain ⟨he32, hips⟩ : e < 2 ^ 32 ∧ Ipv4Addr.widths ip := by
        simpa [PmpOpcodeData.widths] using hwdata
      have hv16 : v / 256 % 256 * 256 + v % 256 = v := by omega
      have he' : e / 2 ^ 24 % 256 * 2 ^ 24 + e / 2 ^ 16 % 256 * 2 ^ 16 +
          e / 256 % 256 * 256 + e % 256 = e := by omega
      cases ip
      simp only [Opcode.parse_data, GetOpcodeData.new]
      rw [if_neg (by simp)]
      simp only [u32_at, List.getD_cons_zero, List.getD_cons_succ, Option.getD_some,
        hv16, he']

/-- C1 (witness): the amended round-trip applied to a concrete `Get` response packet
and a 12-byte buffer. -/
theorem marshal_parse_roundtrip_witness :
    PmpPacket.try_from
        ((PmpPacket.marshal ⟨0x13, .response, .get, some 0xA55A,
            .get ⟨some 1234, some ⟨4, 3, 2, 1⟩⟩⟩ (List.replicate 12 0)).1) =
      some (.ok ⟨0x13, .response, .get, some 0xA55A,
        .get ⟨some 1234, some ⟨4, 3, 2, 1⟩⟩⟩) :=
  marshal_parse_roundtrip _ _ (by decide) (by decide) (by decide) (by decide)

/-- C2 (counterexample): `Other(0)` has code 0, which is at most 127, yet decoding
that code gives `Get`, not `Other(0)` — so the round-trip fails for a value the claim
explicitly includes. -/
theorem opcode_other_zero_not_roundtrip :
    (Opcode.other 0).code ≤ 127 ∧ Opcode.from ((Opcode.other 0).code) ≠ Opcode.other 0 := by
  decide

/-- C2 (amended): for every opcode in the image of `Opcode::from` — `Get`, `MapUdp`,
`MapTcp`, and `Other(n)` with `3 ≤ n ≤ 127` — decoding the byte produced by encoding
it gives the value back: `Opcode::from(op.code()) == op`. -/
theorem opcode_code_roundtrip_canonical (op : Opcode)
    (h : ∀ n, op = .other n → 3 ≤ n ∧ n ≤ 127) :
    Opcode.from op.code = op := by
  have key : ∀ n, n < 128 → 3 ≤ n → Opcode.from ((Opcode.other n).code) = .other n := by
    decide
  cases op with
  | get => decide
  | mapUdp => decide
  | mapTcp => decide
  | other n =>
    obtain ⟨h3, h127⟩ := h n rfl
    exact key n (by omega) h3

/-- C2 (witness): the amended round-trip at `Other(42)`. -/
theorem opcode_code_roundtrip_canonical_witness :
    Opcode.from ((Opcode.other 42).code) = Opcode.other 42 :=
  opcode_code_roundtrip_canonical (.other 42)
    (fun n hn => by cases hn; exact ⟨by decide, by decide⟩)

set_option maxRecDepth 4096 in
/-- C3: for every byte `b`, `Opcode::from(b).code() == b & 0x7F`; the known opcodes
encode to 0, 1, 2, `Other(n)` encodes to `n & 0x7F`, and in particular
`Other(255).code() == 127`. -/
theorem opcode_code_clamp :
    (∀ b, b < 256 → (Opcode.from b).code = b &&& 0x7F) ∧
    Opcode.get.code = 0 ∧ Opcode.mapUdp.code = 1 ∧ Opcode.mapTcp.code = 2 ∧
    (∀ n, n < 256 → (Opcode.other n).code = n &&& 0x7F) ∧
    (Opcode.other 255).code = 127 := by
  refine ⟨by decide, rfl, rfl, rfl, by decide, rfl⟩

/-- C3 (witness): the clamp equations evaluated at the bytes 0x83 and 0xFF. -/
theorem opcode_code_clamp_witness :
    (Opcode.from 0x83).code = 0x83 &&& 0x7F ∧ (Opcode.other 0xFF).code = 0xFF &&& 0x7F :=
  ⟨opcode_code_clamp.1 0x83 (by decide), opcode_code_clamp.2.2.2.2.1 0xFF (by decide)⟩

theorem marshal_short (p : PmpPacket) (buffer : List Nat)
    (hlt : buffer.length < p.requiredLen) :
    p.marshal buffer = (buffer, .error .shortBuffer) := by
  simp only [PmpPacket.requiredLen] at hlt
  unfold PmpPacket.marshal
  dsimp only
  rw [if_pos hlt]

theorem marshal_ok_of_le (p : PmpPacket) (buffer : List Nat) (hok : p.payloadMarshalOk)
    (hlen : p.requiredLen ≤ buffer.length) :
    (p.marshal buffer).2 = .ok p.requiredLen := by
  rcases p with ⟨ver, dir, op, rco, data⟩
  simp only [PmpPacket.requiredLen] at hlen ⊢
  cases dir with
  | request =>
    cases data with
    | unrecognized =>
      simp only [headerLen, PmpOpcodeData.len] at hlen ⊢
      obtain ⟨b0, B1, rfl, h1⟩ := exists_cons_of_le_length (l := buffer) 1 (by omega)
      obtain ⟨b1, t, rfl, h2⟩ := exists_cons_of_le_length (l := B1) 0 (by omega)
      rw [marshal_request_cons _ rfl]
    | get g =>
      simp only [headerLen, PmpOpcodeData.len] at hlen ⊢
      obtain ⟨b0, B1, rfl, h1⟩ := exists_cons_of_le_length (l := buffer) 1 (by omega)
      obtain ⟨b1, t, rfl, h2⟩ := exists_cons_of_le_length (l := B1) 0 (by omega)
      rw [marshal_request_cons _ rfl]
  | response =>
    cases data with
    | unrecognized =>
      simp only [headerLen, PmpOpcodeData.len] at hlen ⊢
      obtain ⟨b0, B1, rfl, h1⟩ := exists_cons_of_le_length (l := buffer) 3 (by omega)
      obtain ⟨b1, B2, rfl, h2⟩ := exists_cons_of_le_length (l := B1) 2 (by omega)
      obtain ⟨b2, B3, rfl, h3⟩ := exists_cons_of_le_length (l := B2) 1 (by omega)
      obtain ⟨b3, t, rfl, h4⟩ := exists_cons_of_le_length (l := B3) 0 (by omega)
      rw [marshal_response_unrec_cons _ rfl rfl]
    | get g =>
      obtain ⟨he, hi⟩ := hok
      obtain ⟨eo, io⟩ := g
      obtain ⟨e, rfl⟩ : ∃ e, eo = some e := by
        cases eo with
        | none => exact absurd he (by simp)
        | some e => exact ⟨e, rfl⟩
      obtain ⟨ip, rfl⟩ : ∃ ip, io = some ip := by
        cases io with
        | none => exact absurd hi (by simp)
        | some ip => exact ⟨ip, rfl⟩
      simp only [headerLen, PmpOpcodeData.len] at hlen ⊢
      obtain ⟨b0, B1, rfl, h1⟩ := exists_cons_of_le_length (l := buffer) 11 (by omega)
      obtain ⟨b1, B2, rfl, h2⟩ := exists_cons_of_le_length (l := B1) 10 (by omega)
      obtain ⟨b2, B3, rfl, h3⟩ := exists_cons_of_le_length (l := B2) 9 (by omega)
      obtain ⟨b3, B4, rfl, h4⟩ := exists_cons_of_le_length (l := B3) 8 (by omega)
      obtain ⟨b4, B5, rfl, h5⟩ := exists_cons_of_le_length (l := B4) 7 (by omega)
      obtain ⟨b5, B6, rfl, h6⟩ := exists_cons_of_le_length (l := B5) 6 (by omega)
      obtain ⟨b6, B7, rfl, h7⟩ := exists_cons_of_le_length (l := B6) 5 (by omega)
      obtain ⟨b7, B8, rfl, h8⟩ := exists_cons_of_le_length (l := B7) 4 (by omega)
      obtain ⟨b8, B9, rfl, h9⟩ := exists_cons_of_le_length (l := B8) 3 (by omega)
      obtain ⟨b9, B10, rfl, h10⟩ := exists_cons_of_le_length (l := B9) 2 (by omega)
      obtain ⟨b10, B11, rfl, h11⟩ := exists_cons_of_le_length (l := B10) 1 (by omega)
      obtain ⟨b11, t, rfl, h12⟩ := exists_cons_of_le_length (l := B11) 0 (by omega)
      rw [marshal_response_get_cons _ rfl e ip rfl]

/-- C4 (counterexample): the claim says marshal succeeds if and only if the buffer
holds the required length, for every packet — but a `Get` response packet whose
payload fields are both absent fails to marshal into a 12-byte buffer even though the
required length is 12. -/
theorem marshal_get_response_missing_fields_fails :
    (⟨0, .response, .get, some 0, .get ⟨none, none⟩⟩ : PmpPacket).requiredLen ≤
      (List.replicate 12 0).length ∧
    (PmpPacket.marshal ⟨0, .response, .get, some 0, .get ⟨none, none⟩⟩
        (List.replicate 12 0)).2 = .error .unexpectedOpcodeData := by
  decide

/-- C4 (amended): for every packet whose payload can marshal under its direction (a
`Get` response payload carries both fields; every other pairing is unconditional) and
every buffer: marshal succeeds iff the buffer holds at least
`header_len + payload.len(direction)` bytes, a success returns exactly that count, and
a too-small buffer yields `MarshalError::ShortBuffer`. -/
theorem marshal_length_contract (p : PmpPacket) (buffer : List Nat)
    (hok : p.payloadMarshalOk) :
    ((∃ n, (p.marshal buffer).2 = .ok n) ↔ p.requiredLen ≤ buffer.length) ∧
    (∀ n, (p.marshal buffer).2 = .ok n → n = p.requiredLen) ∧
    (buffer.length < p.requiredLen → (p.marshal buffer).2 = .error .shortBuffer) := by
  refine ⟨⟨?_, ?_⟩, ?_, ?_⟩
  · rintro ⟨n, hn⟩
    by_contra hlt
    push_neg at hlt
    rw [marshal_short p buffer hlt] at hn
    exact Except.noConfusion hn
  · intro hle
    exact ⟨p.requiredLen, marshal_ok_of_le p buffer hok hle⟩
  · intro n hn
    by_cases hlt : buffer.length < p.requiredLen
    · rw [marshal_short p buffer hlt] at hn
      exact Except.noConfusion hn
    · have h := marshal_ok_of_le p buffer hok (by omega)
      rw [h] at hn
      exact (Except.ok.injEq _ _ ▸ hn).symm
  · intro hlt
    rw [marshal_short p buffer hlt]

/-- C4 (witness): the contract applied to an unknown-opcode response packet and a
4-byte buffer, and to the same packet and a 3-byte buffer. -/
theorem marshal_length_contract_witness :
    ((∃ n, (PmpPacket.marshal ⟨0x13, .response, .other 0x55, some 0xBBAA, .unrecognized⟩
        [0, 0, 0, 0]).2 = .ok n) ↔
      (⟨0x13, .response, .other 0x55, some 0xBBAA, .unrecognized⟩ : PmpPacket).requiredLen ≤
        ([0, 0, 0, 0] : List Nat).length) ∧
    (([0, 0, 0] : List Nat).length <
        (⟨0x13, .response, .other 0x55, some 0xBBAA, .unrecognized⟩ : PmpPacket).requiredLen →
      (PmpPacket.marshal ⟨0x13, .response, .other 0x55, some 0xBBAA, .unrecognized⟩
        [0, 0, 0]).2 = .error .shortBuffer) :=
  ⟨(marshal_length_contract _ _ (by decide)).1,
    (marshal_length_contract _ _ (by decide)).2.2⟩

/-- Inversion of a successful parse: the direction comes from byte 1 and the result
code field is populated exactly as the direction dictates. -/
theorem try_from_ok_fields {buffer : List Nat} {p : PmpPacket}
    (hp : PmpPacket.try_from buffer = some (.ok p)) :
    p.direction = Direction.from (buffer.getD 1 0) ∧
    ((p.direction = .request ∧ p.result_code_opt = none) ∨
     (p.direction = .response ∧ p.result_code_opt = some (u16_at buffer 2))) := by
  unfold PmpPacket.try_from at hp
  by_cases h2 : buffer.length < 2
  · rw [if_pos h2] at hp
    exact absurd hp (by simp)
  · rw [if_neg h2] at hp
    dsimp only at hp
    cases hdir : Direction.from (buffer.getD 1 0) with
    | request =>
      rw [hdir] at hp
      dsimp only at hp
      cases hpd : Opcode.parse_data (Opcode.from (buffer.getD 1 0)) .request
          (buffer.drop 2) with
      | none => rw [hpd] at hp; exact absurd hp (by simp)
      | some r =>
        rw [hpd] at hp
        cases r with
        | error e => exact absurd hp (by simp)
        | ok d =>
          simp only [Option.some.injEq, Except.ok.injEq] at hp
          subst hp
          exact ⟨rfl, .inl ⟨rfl, rfl⟩⟩
    | response =>
      rw [hdir] at hp
      dsimp only at hp
      by_cases h4 : buffer.length < 4
      · rw [if_pos h4] at hp
        exact absurd hp (by simp)
      · rw [if_neg h4] at hp
        cases hpd : Opcode.parse_data (Opcode.from (buffer.getD 1 0)) .response
            (buffer.drop 4) with
        | none => rw [hpd] at hp; exact absurd hp (by simp)
        | some r =>
          rw [hpd] at hp
          cases r with
          | error e => exact absurd hp (by simp)
          | ok d =>
            simp only [Option.some.injEq, Except.ok.injEq] at hp
            subst hp
            exact ⟨rfl, .inr ⟨rfl, rfl⟩⟩

/-- C5: parsing fails with `ShortBuffer` on buffers of fewer than 2 bytes; when bit 7
of byte 1 marks a response it also fails with `ShortBuffer` on buffers of fewer than
4 bytes; otherwise a response packet's result code is the big-endian `u16` at offset 2
and a request packet's result code is `None`. -/
theorem parse_header_contract (buffer : List Nat) :
    (buffer.length < 2 → PmpPacket.try_from buffer = some (.error .shortBuffer)) ∧
    (2 ≤ buffer.length → buffer.getD 1 0 &&& 0x80 ≠ 0 → buffer.length < 4 →
      PmpPacket.try_from buffer = some (.error .shortBuffer)) ∧
    (∀ p, PmpPacket.try_from buffer = some (.ok p) →
      (p.direction = .response → p.result_code_opt = some (u16_at buffer 2)) ∧
      (p.direction = .request → p.result_code_opt = none)) := by
  refine ⟨?_, ?_, ?_⟩
  · intro h
    unfold PmpPacket.try_from
    rw [if_pos h]
  · intro h2 hbit h4
    unfold PmpPacket.try_from
    rw [if_neg (by omega)]
    dsimp only
    have hdir : Direction.from (buffer.getD 1 0) = .response := by
      unfold Direction.from
      rw [if_neg hbit]
    rw [hdir]
    dsimp only
    rw [if_pos h4]
  · intro p hp
    obtain ⟨hdir, hrc⟩ := try_from_ok_fields hp
    rcases hrc with ⟨hreq, hnone⟩ | ⟨hresp, hsome⟩
    · refine ⟨fun h => ?_, fun _ => hnone⟩
      rw [hreq] at h
      exact absurd h (by simp)
    · refine ⟨fun _ => hsome, fun h => ?_⟩
      rw [hresp] at h
      exact absurd h (by simp)

/-- C5 (witness): the header contract evaluated on the spec's short-request,
short-response and unknown-response scenarios. -/
theorem parse_header_contract_witness :
    PmpPacket.try_from [0x00] = some (.error .shortBuffer) ∧
    PmpPacket.try_from [0x00, 0x80, 0x00] = some (.error .shortBuffer) ∧
    (⟨0x13, .response, .other 0x55, some 0xA55A, .unrecognized⟩ : PmpPacket).result_code_opt =
      some (u16_at [0x13, 0xD5, 0xA5, 0x5A] 2) :=
  ⟨(parse_header_contract [0x00]).1 (by decide),
   (parse_header_contract [0x00, 0x80, 0x00]).2.1 (by decide) (by decide) (by decide),
   ((parse_header_contract [0x13, 0xD5, 0xA5, 0x5A]).2.2
     ⟨0x13, .response, .other 0x55, some 0xA55A, .unrecognized⟩ (by decide)).1 rfl⟩

/-- C6: the payload parsers for `MapUdp` and `MapTcp` reach `unimplemented!()` — the
process aborts (modelled as `none`) instead of a structured `ParseError` being
returned to the caller. -/
theorem parse_map_opcode_panics :
    PmpPacket.try_from [0x00, 0x01] = none ∧
    PmpPacket.try_from [0x00, 0x02] = none ∧
    Opcode.mapUdp.parse_data .request [] = none ∧
    Opcode.mapTcp.parse_data .request [] = none := by
  decide

/-- C7: every packet produced by a successful parse has its result code present if and
only if its direction is `Response`. -/
theorem parse_result_code_invariant (buffer : List Nat) (p : PmpPacket)
    (hp : PmpPacket.try_from buffer = some (.ok p)) :
    p.result_code_opt.isSome ↔ p.direction = .response := by
  obtain ⟨hdir, hrc⟩ := try_from_ok_fields hp
  rcases hrc with ⟨hreq, hnone⟩ | ⟨hresp, hsome⟩
  · rw [hreq, hnone]
    simp
  · rw [hresp, hsome]
    simp

/-- C7 (witness): the invariant on the packet parsed from the unknown-response
scenario bytes. -/
theorem parse_result_code_invariant_witness :
    ((⟨0x13, .response, .other 0x55, some 0xA55A, .unrecognized⟩ : PmpPacket).result_code_opt.isSome ↔
      (⟨0x13, .response, .other 0x55, some 0xA55A, .unrecognized⟩ : PmpPacket).direction = .response) :=
  parse_result_code_invariant [0x13, 0xD5, 0xA5, 0x5A]
    ⟨0x13, .response, .other 0x55, some 0xA55A, .unrecognized⟩ (by decide)

/-- C8: whenever the opcode bits decode to `Other(n)` and the header-length
requirements are met, parsing succeeds — whatever trailing bytes follow — and yields
the `Unrecognized` sentinel payload; that payload's `len` is 0 in both directions and
its marshal writes nothing and always succeeds. -/
theorem other_opcode_unrecognized_payload :
    (∀ buffer n, 2 ≤ buffer.length →
      Opcode.from (buffer.getD 1 0) = .other n →
      (Direction.from (buffer.getD 1 0) = .response → 4 ≤ buffer.length) →
      ∃ p, PmpPacket.try_from buffer = some (.ok p) ∧
        p.opcode_data = .unrecognized ∧ p.opcode = .other n) ∧
    (∀ d, PmpOpcodeData.unrecognized.len d = 0) ∧
    (∀ d buf, PmpOpcodeData.unrecognized.marshal d buf = (buf, .ok ())) := by
  refine ⟨?_, ?_, ?_⟩
  · intro buffer n h2 hop hresp
    unfold PmpPacket.try_from
    rw [if_neg (by omega)]
    dsimp only
    cases hdir : Direction.from (buffer.getD 1 0) with
    | request =>
      rw [hop]
      exact ⟨_, rfl, rfl, rfl⟩
    | response =>
      rw [if_neg (by have := hresp hdir; omega)]
      rw [hop]
      exact ⟨_, rfl, rfl, rfl⟩
  · intro d
    cases d <;> rfl
  · intro d buf
    rfl

/-- C8 (witness): the unknown-request scenario `[0x12, 0x55]`, with three trailing
junk bytes added to exercise the any-trailing-count clause. -/
theorem other_opcode_unrecognized_payload_witness :
    ∃ p, PmpPacket.try_from [0x12, 0x55, 9, 9, 9] = some (.ok p) ∧
      p.opcode_data = .unrecognized ∧ p.opcode = .other 0x55 :=
  other_opcode_unrecognized_payload.1 [0x12, 0x55, 9, 9, 9] 0x55
    (by decide) (by decide) (by decide)

/-- C10: two packets that differ only in `result_code_opt`, marshalled in request
direction into equal buffers, produce identical buffers and identical return values —
a request marshal never reads `result_code_opt`. -/
theorem request_marshal_ignores_result_code (p1 p2 : PmpPacket) (B : List Nat)
    (hd : p1.direction = .request)
    (hver : p2.version = p1.version) (hdir : p2.direction = p1.direction)
    (hop : p2.opcode = p1.opcode) (hdata : p2.opcode_data = p1.opcode_data) :
    PmpPacket.marshal p2 B = PmpPacket.marshal p1 B := by
  rcases p1 with ⟨ver, dir, op, rco, data⟩
  rcases p2 with ⟨ver2, dir2, op2, rco2, data2⟩
  subst hver hdir hop hdata
  subst hd
  rfl

/-- C10 (witness): a spec-invalid request carrying `Some(0xFFFF)` marshals exactly as
the valid one carrying `None`. -/
theorem request_marshal_ignores_result_code_witness :
    PmpPacket.marshal ⟨0x12, .request, .other 0x55, some 0xFFFF, .unrecognized⟩ [9, 9] =
      PmpPacket.marshal ⟨0x12, .request, .other 0x55, none, .unrecognized⟩ [9, 9] :=
  request_marshal_ignores_result_code
    ⟨0x12, .request, .other 0x55, none, .unrecognized⟩
    ⟨0x12, .request, .other 0x55, some 0xFFFF, .unrecognized⟩
    [9, 9] rfl rfl rfl rfl rfl

theorem getElem?_eq_some_getD {l : List Nat} {i : Nat} (h : i < l.length) :
    l[i]? = some (l.getD i 0) := by
  rw [List.getElem?_eq_getElem h]
  simp [List.getD_eq_getElem?_getD, List.getElem?_eq_getElem h]

theorem u32_at_checked_eq (buf : List Nat) (h : 4 ≤ buf.length) :
    u32_at_checked buf 0 = some (u32_at buf 0) := by
  unfold u32_at_checked u32_at
  rw [getElem?_eq_some_getD (i := 0) (by omega), getElem?_eq_some_getD (i := 0 + 1) (by omega),
    getElem?_eq_some_getD (i := 0 + 2) (by omega), getElem?_eq_some_getD (i := 0 + 3) (by omega)]

theorem u16_at_checked_eq (buf : List Nat) (h : 4 ≤ buf.length) :
    u16_at_checked buf 2 = some (u16_at buf 2) := by
  unfold u16_at_checked u16_at
  rw [getElem?_eq_some_getD (i := 2) (by omega), getElem?_eq_some_getD (i := 2 + 1) (by omega)]

theorem new_checked_eq (direction : Direction) (buf : List Nat) :
    GetOpcodeData.new_checked direction buf = some (GetOpcodeData.new direction buf) := by
  cases direction with
  | request => rfl
  | response =>
    unfold GetOpcodeData.new_checked GetOpcodeData.new
    by_cases h : buf.length < 8
    · rw [if_pos h, if_pos h]
    · rw [if_neg h, if_neg h]
      rw [u32_at_checked_eq buf (by omega),
        getElem?_eq_some_getD (i := 4) (by omega), getElem?_eq_some_getD (i := 5) (by omega),
        getElem?_eq_some_getD (i := 6) (by omega), getElem?_eq_some_getD (i := 7) (by omega)]

theorem parse_data_checked_eq (op : Opcode) (direction : Direction) (buf : List Nat) :
    op.parse_data_checked direction buf = some (op.parse_data direction buf) := by
  cases op with
  | get =>
    unfold Opcode.parse_data_checked Opcode.parse_data
    rw [new_checked_eq]
    cases GetOpcodeData.new direction buf with
    | ok d => rfl
    | error e => rfl
  | mapUdp => rfl
  | mapTcp => rfl
  | other n => rfl

theorem try_from_checked_eq (buffer : List Nat) :
    PmpPacket.try_from_checked buffer = some (PmpPacket.try_from buffer) := by
  unfold PmpPacket.try_from_checked PmpPacket.try_from
  by_cases h2 : buffer.length < 2
  · rw [if_pos h2, if_pos h2]
  · rw [if_neg h2, if_neg h2]
    dsimp only
    rw [getElem?_eq_some_getD (i := 0) (by omega), getElem?_eq_some_getD (i := 1) (by omega)]
    dsimp only
    cases hdir : Direction.from (buffer.getD 1 0) with
    | request =>
      rw [if_pos (by omega)]
      rw [parse_data_checked_eq]
      cases Opcode.parse_data (Opcode.from (buffer.getD 1 0)) .request (buffer.drop 2) with
      | none => rfl
      | some r =>
        cases r with
        | error e => rfl
        | ok d => rfl
    | response =>
      by_cases h4 : buffer.length < 4
      · rw [if_pos h4, if_pos h4]
      · rw [if_neg h4, if_neg h4]
        rw [u16_at_checked_eq buffer (by omega)]
        dsimp only
        rw [if_pos (by omega)]
        rw [parse_data_checked_eq]
        cases Opcode.parse_data (Opcode.from (buffer.getD 1 0)) .response (buffer.drop 4) with
        | none => rfl
        | some r =>
          cases r with
          | error e => rfl
          | ok d => rfl

theorem getD_append_ge (xs t : List Nat) (i : Nat) (h : xs.length ≤ i) :
    (xs ++ t).getD i 0 = t.getD (i - xs.length) 0 := by
  simp [List.getD_eq_getElem?_getD, List.getElem?_append_right h]

theorem len_request_zero (d : PmpOpcodeData) : d.len .request = 0 := by
  cases d <;> rfl

theorem marshal_response_get_none_cons (p : PmpPacket) (hd : p.direction = .response)
    (eo : Option Nat) (io : Option Ipv4Addr) (hdata : p.opcode_data = .get ⟨eo, io⟩)
    (hg : eo = none ∨ io = none)
    (b0 b1 b2 b3 b4 b5 b6 b7 b8 b9 b10 b11 : Nat) (t : List Nat) :
    p.marshal
        (b0 :: b1 :: b2 :: b3 :: b4 :: b5 :: b6 :: b7 :: b8 :: b9 :: b10 :: b11 :: t) =
      (p.version :: (Direction.code .response ||| p.opcode.code) ::
        (p.result_code_opt.getD 0 / 256 % 256) :: (p.result_code_opt.getD 0 % 256) ::
        b4 :: b5 :: b6 :: b7 :: b8 :: b9 :: b10 :: b11 :: t,
        .error .unexpectedOpcodeData) := by
  unfold PmpPacket.marshal
  rw [hd, hdata]
  rcases hg with rfl | rfl
  · simp [PmpOpcodeData.len, PmpOpcodeData.marshal, GetOpcodeData.marshal, headerLen,
      u16_into, List.set]
    rw [if_neg (by omega), if_neg (by omega)]
  · cases eo with
    | none =>
      simp [PmpOpcodeData.len, PmpOpcodeData.marshal, GetOpcodeData.marshal, headerLen,
        u16_into, List.set]
      rw [if_neg (by omega), if_neg (by omega)]
    | some e =>
      simp [PmpOpcodeData.len, PmpOpcodeData.marshal, GetOpcodeData.marshal, headerLen,
        u16_into, List.set]
      rw [if_neg (by omega), if_neg (by omega)]

theorem marshal_writes_in_bounds (p : PmpPacket) (buffer : List Nat) :
    (p.marshal buffer).1.length = buffer.length ∧
    ∀ i, p.requiredLen ≤ i → (p.marshal buffer).1.getD i 0 = buffer.getD i 0 := by
  by_cases hlt : buffer.length < p.requiredLen
  · rw [marshal_short p buffer hlt]
    exact ⟨rfl, fun i _ => rfl⟩
  · push_neg at hlt
    rcases p with ⟨ver, dir, op, rco, data⟩
    simp only [PmpPacket.requiredLen] at hlt ⊢
    cases dir with
    | request =>
      simp only [headerLen, len_request_zero] at hlt ⊢
      obtain ⟨b0, B1, rfl, h1⟩ := exists_cons_of_le_length (l := buffer) 1 (by omega)
      obtain ⟨b1, t, rfl, h2⟩ := exists_cons_of_le_length (l := B1) 0 (by omega)
      rw [marshal_request_cons _ rfl]
      refine ⟨by simp, fun i hi => ?_⟩
      exact (getD_append_ge [ver, Direction.code .request ||| Opcode.code op] t i
          (by simp only [List.length_cons, List.length_nil]; omega)).trans
        ((getD_append_ge [b0, b1] t i
          (by simp only [List.length_cons, List.length_nil]; omega)).symm)
    | response =>
      cases data with
      | unrecognized =>
        simp only [headerLen, PmpOpcodeData.len] at hlt ⊢
        obtain ⟨b0, B1, rfl, h1⟩ := exists_cons_of_le_length (l := buffer) 3 (by omega)
        obtain ⟨b1, B2, rfl, h2⟩ := exists_cons_of_le_length (l := B1) 2 (by omega)
        obtain ⟨b2, B3, rfl, h3⟩ := exists_cons_of_le_length (l := B2) 1 (by omega)
        obtain ⟨b3, t, rfl, h4⟩ := exists_cons_of_le_length (l := B3) 0 (by omega)
        rw [marshal_response_unrec_cons _ rfl rfl]
        refine ⟨by simp, fun i hi => ?_⟩
        exact (getD_append_ge [ver, Direction.code .response ||| Opcode.code op,
            (rco.getD 0 / 256 % 256), (rco.getD 0 % 256)] t i
            (by simp only [List.length_cons, List.length_nil]; omega)).trans
          ((getD_append_ge [b0, b1, b2, b3] t i
            (by simp only [List.length_cons, List.length_nil]; omega)).symm)
      | get g =>
        obtain ⟨eo, io⟩ := g
        simp only [headerLen, PmpOpcodeData.len] at hlt ⊢
        obtain ⟨b0, B1, rfl, h1⟩ := exists_cons_of_le_length (l := buffer) 11 (by omega)
        obtain ⟨b1, B2, rfl, h2⟩ := exists_cons_of_le_length (l := B1) 10 (by omega)
        obtain ⟨b2, B3, rfl, h3⟩ := exists_cons_of_le_length (l := B2) 9 (by omega)
        obtain ⟨b3, B4, rfl, h4⟩ := exists_cons_of_le_length (l := B3) 8 (by omega)
        obtain ⟨b4, B5, rfl, h5⟩ := exists_cons_of_le_length (l := B4) 7 (by omega)
        obtain ⟨b5, B6, rfl, h6⟩ := exists_cons_of_le_length (l := B5) 6 (by omega)
        obtain ⟨b6, B7, rfl, h7⟩ := exists_cons_of_le_length (l := B6) 5 (by omega)
        obtain ⟨b7, B8, rfl, h8⟩ := exists_cons_of_le_length (l := B7) 4 (by omega)
        obtain ⟨b8, B9, rfl, h9⟩ := exists_cons_of_le_length (l := B8) 3 (by omega)
        obtain ⟨b9, B10, rfl, h10⟩ := exists_cons_of_le_length (l := B9) 2 (by omega)
        obtain ⟨b10, B11, rfl, h11⟩ := exists_cons_of_le_length (l := B10) 1 (by omega)
        obtain ⟨b11, t, rfl, h12⟩ := exists_cons_of_le_length (l := B11) 0 (by omega)
        cases eo with
        | none =>
          rw [marshal_response_get_none_cons _ rfl none io rfl (Or.inl rfl)]
          refine ⟨by simp, fun i hi => ?_⟩
          exact (getD_append_ge [ver, Direction.code .response ||| Opcode.code op,
              (rco.getD 0 / 256 % 256), (rco.getD 0 % 256),
              b4, b5, b6, b7, b8, b9, b10, b11] t i
              (by simp only [List.length_cons, List.length_nil]; omega)).trans
            ((getD_append_ge [b0, b1, b2, b3, b4, b5, b6, b7, b8, b9, b10, b11] t i
              (by simp only [List.length_cons, List.length_nil]; omega)).symm)
        | some e =>
          cases io with
          | none =>
            rw [marshal_response_get_none_cons _ rfl (some e) none rfl (Or.inr rfl)]
            refine ⟨by simp, fun i hi => ?_⟩
            exact (getD_append_ge [ver, Direction.code .response ||| Opcode.code op,
                (rco.getD 0 / 256 % 256), (rco.getD 0 % 256),
                b4, b5, b6, b7, b8, b9, b10, b11] t i
                (by simp only [List.length_cons, List.length_nil]; omega)).trans
              ((getD_append_ge [b0, b1, b2, b3, b4, b5, b6, b7, b8, b9, b10, b11] t i
                (by simp only [List.length_cons, List.length_nil]; omega)).symm)
          | some ip =>
            rw [marshal_response_get_cons _ rfl e ip rfl]
            refine ⟨by simp, fun i hi => ?_⟩
            exact (getD_append_ge [ver, Direction.code .response ||| Opcode.code op,
                (rco.getD 0 / 256 % 256), (rco.getD 0 % 256),
                (e / 2 ^ 24 % 256), (e / 2 ^ 16 % 256), (e / 256 % 256), (e % 256),
                ip.o0, ip.o1, ip.o2, ip.o3] t i
                (by simp only [List.length_cons, List.length_nil]; omega)).trans
              ((getD_append_ge [b0, b1, b2, b3, b4, b5, b6, b7, b8, b9, b10, b11] t i
                (by simp only [List.length_cons, List.length_nil]; omega)).symm)

/-- C9: parsing never reads a byte at or past the buffer's length — the
bounds-instrumented parser, whose every byte access fails on an out-of-range index,
agrees with the plain parser on every input — and marshalling never writes a byte at
or past the required length `header_len + payload.len(direction)`: the buffer keeps
its length and every byte at or past the required length is unchanged, on success and
on failure alike. -/
theorem bounds_safety :
    (∀ buffer, PmpPacket.try_from_checked buffer = some (PmpPacket.try_from buffer)) ∧
    (∀ p buffer, (PmpPacket.marshal p buffer).1.length = buffer.length ∧
      ∀ i, p.requiredLen ≤ i →
        (PmpPacket.marshal p buffer).1.getD i 0 = buffer.getD i 0) :=
  ⟨try_from_checked_eq, marshal_writes_in_bounds⟩

/-- C9 (witness): a response marshal into a 6-byte buffer (required length 4) leaves
the byte at index 5 untouched. -/
theorem bounds_safety_witness :
    (PmpPacket.marshal ⟨0x13, .response, .other 0x55, some 0xBBAA, .unrecognized⟩
        [7, 7, 7, 7, 7, 7]).1.getD 5 0 = ([7, 7, 7, 7, 7, 7] : List Nat).getD 5 0 :=
  (bounds_safety.2 ⟨0x13, .response, .other 0x55, some 0xBBAA, .unrecognized⟩
    [7, 7, 7, 7, 7, 7]).2 5 (by decide)

end Pmp
